import Mathlib

/-!
Verification of the MCP client/orchestration layer (`src/agent/agent.py`,
with `src/backend/agent.py` as a behaviourally identical duplicate of the
client class).  The Python source is shallowly embedded: JSON values become
the inductive `JVal`, Python string operations are modelled over `List Char`,
exceptions become `Except`/explicit error values, and network calls become
oracle parameters.  Every definition is translated from the source file it
names in its doc comment.
-/

/-- JSON values as produced by Python's `json.loads`: `None`, `bool`, numbers
(modelled as integers; the claims under study never exercise fractional
numbers), `str`, `list`, and `dict` (an association list in insertion order,
keys unique for values produced by `json.loads`). -/
inductive JVal where
  | null : JVal
  | bool (b : Bool) : JVal
  | num (n : Int) : JVal
  | str (s : String) : JVal
  | arr (xs : List JVal) : JVal
  | obj (fields : List (String × JVal)) : JVal

/-- Python truthiness (`bool(v)`) for JSON-shaped values: `None`, `False`,
`0`, `""`, `[]` and `{}` are falsy, everything else truthy. -/
def JVal.truthy : JVal → Bool
  | .null => false
  | .bool b => b
  | .num n => n != 0
  | .str s => s != ""
  | .arr xs => !xs.isEmpty
  | .obj fields => !fields.isEmpty

/-- `d.get(k, default)` on a Python dict, modelled on the field list. -/
def JVal.getD (fields : List (String × JVal)) (k : String) (default : JVal) : JVal :=
  (fields.lookup k).getD default

/-- Python `str.lower`, ASCII case folding (the configuration keywords and
queries in this repository are ASCII). -/
def pyLower (s : List Char) : List Char := s.map Char.toLower

/-- The characters Python's `str.strip` removes (ASCII whitespace). -/
def isPySpace (c : Char) : Bool :=
  c = ' ' || c = '\t' || c = '\n' || c = '\r' || c = '\x0b' || c = '\x0c'

/-- Python `str.strip()`: drop leading and trailing whitespace. -/
def pyStrip (s : List Char) : List Char :=
  ((s.dropWhile isPySpace).reverse.dropWhile isPySpace).reverse

/-- Python `s.split("\n")`. -/
def splitNL : List Char → List (List Char)
  | [] => [[]]
  | c :: rest =>
    if c = '\n' then [] :: splitNL rest
    else
      match splitNL rest with
      | [] => [[c]]
      | g :: gs => (c :: g) :: gs

/-- Python `s.split("\n\n")` (leftmost, non-overlapping occurrences). -/
def splitNLNL : List Char → List (List Char)
  | [] => [[]]
  | [c] => [[c]]
  | c1 :: c2 :: rest =>
    if c1 = '\n' && c2 = '\n' then [] :: splitNLNL rest
    else
      match splitNLNL (c2 :: rest) with
      | [] => [[c1]]
      | g :: gs => (c1 :: g) :: gs

/-- Python substring test `needle in hay` on strings. -/
def strContains (hay needle : List Char) : Bool :=
  needle.isPrefixOf hay ||
    match hay with
    | [] => false
    | _ :: t => strContains t needle

/-! ### A model of `json.loads`

The decoder below needs a concrete stand-in for Python's `json` library.
This is a standard recursive-descent JSON reader over `List Char`,
returning `none` where `json.loads` raises `JSONDecodeError`.  Restrictions
against the real library, none of which the claims exercise: numbers are
integers only, and `\u` string escapes are not recognised. -/

/-- JSON insignificant whitespace. -/
def skipWs (s : List Char) : List Char :=
  s.dropWhile (fun c => c = ' ' || c = '\t' || c = '\n' || c = '\r')

/-- Translate one JSON string escape character (`\uXXXX` escapes are not
recognised by this model). -/
def escChar (e : Char) : Option Char :=
  if e = 'n' then some '\n'
  else if e = 't' then some '\t'
  else if e = 'r' then some '\r'
  else if e = 'b' then some '\x08'
  else if e = 'f' then some '\x0c'
  else if e = '"' || e = '\\' || e = '/' then some e
  else none

/-- Read a JSON string body after the opening quote; returns the content and
the remainder after the closing quote. -/
def parseStringBody : List Char → Option (List Char × List Char)
  | [] => none
  | '"' :: r => some ([], r)
  | '\\' :: e :: r => do
    let c ← escChar e
    let (s, r2) ← parseStringBody r
    some (c :: s, r2)
  | '\\' :: [] => none
  | c :: r => do
    let (s, r2) ← parseStringBody r
    some (c :: s, r2)

/-- Read a JSON integer (optional minus sign, no leading zeros). -/
def parseIntLit (s : List Char) : Option (Int × List Char) :=
  let (neg, s1) := match s with
    | '-' :: r => (true, r)
    | _ => (false, s)
  let digits := s1.takeWhile Char.isDigit
  let rest := s1.dropWhile Char.isDigit
  if digits.isEmpty then none
  else if digits.head? = some '0' && digits.length != 1 then none
  else
    match rest with
    | '.' :: _ => none
    | 'e' :: _ => none
    | 'E' :: _ => none
    | _ =>
      let n : Int := digits.foldl (fun acc c => acc * 10 + (c.toNat - '0'.toNat)) 0
      some (if neg then -n else n, rest)

/-- Recognise one of the JSON keyword literals (`null`, `true`,
`false`). -/
def keywordToken (s : List Char) : Option (JVal × List Char) :=
  if "null".toList.isPrefixOf s then some (.null, s.drop 4)
  else if "true".toList.isPrefixOf s then some (.bool true, s.drop 4)
  else if "false".toList.isPrefixOf s then some (.bool false, s.drop 5)
  else none

mutual

/-- Read one JSON value; `fuel` bounds recursion depth. -/
def parseValue : Nat → List Char → Option (JVal × List Char)
  | 0, _ => none
  | Nat.succ fuel, s =>
    match keywordToken (skipWs s) with
    | some vr => some vr
    | none =>
    match skipWs s with
    | '"' :: r => do
      let (content, r2) ← parseStringBody r
      some (.str (String.mk content), r2)
    | '[' :: r =>
      (match skipWs r with
       | ']' :: r2 => some (.arr [], r2)
       | _ => do
        let (xs, r2) ← parseItems fuel r
        some (.arr xs, r2))
    | '{' :: r =>
      (match skipWs r with
       | '}' :: r2 => some (.obj [], r2)
       | _ => do
        let (fs, r2) ← parseMembers fuel r
        some (.obj fs, r2))
    | s2 => do
      let (n, r) ← parseIntLit s2
      some (.num n, r)

/-- Read one-or-more comma-separated array items up to `]`. -/
def parseItems : Nat → List Char → Option (List JVal × List Char)
  | 0, _ => none
  | Nat.succ fuel, s => do
    let (v, r) ← parseValue fuel s
    match skipWs r with
    | ',' :: r2 => do
      let (xs, r3) ← parseItems fuel r2
      some (v :: xs, r3)
    | ']' :: r2 => some ([v], r2)
    | _ => none

/-- Read one-or-more comma-separated object members up to a closing brace. -/
def parseMembers : Nat → List Char → Option (List (String × JVal) × List Char)
  | 0, _ => none
  | Nat.succ fuel, s =>
    match skipWs s with
    | '"' :: r => do
      let (key, r2) ← parseStringBody r
      match skipWs r2 with
      | ':' :: r3 => do
        let (v, r4) ← parseValue fuel r3
        match skipWs r4 with
        | ',' :: r5 => do
          let (fs, r6) ← parseMembers fuel r5
          some ((String.mk key, v) :: fs, r6)
        | '}' :: r5 => some ([(String.mk key, v)], r5)
        | _ => none
      | _ => none
    | _ => none

end

/-- Model of Python `json.loads`: parse one value, demand only whitespace
after it; `none` models a raised `JSONDecodeError`. -/
def jsonLoads (s : List Char) : Option JVal :=
  match parseValue (s.length + 1) s with
  | some (v, rest) => if (skipWs rest).isEmpty then some v else none
  | none => none

/-! ### SSE frame decoder — `MCPStreamingClient._parse_sse_response`
(`src/agent/agent.py` lines 151-191; byte-identical logic in
`src/backend/agent.py`). -/

/-- The distinct failure outcomes of `_parse_sse_response`.  The source
raises `RuntimeError` with a message for the first three; the last two are
`TypeError`s Python itself raises in the `error`-inspection code, which no
handler in the function catches. -/
inductive DecodeError where
  | noDataFrame : DecodeError
  -- RuntimeError "No valid JSON data found in SSE response"
  | invalidJson (data : List Char) : DecodeError
  -- RuntimeError "Invalid JSON in response: ..." from JSONDecodeError
  | rpcError (code message : JVal) : DecodeError
  -- RuntimeError "MCP error code: message" for a JSON-RPC error object
  | attrErrorOnError : DecodeError
  -- error field present but not a dict: `error.get` raises AttributeError
  | typeErrorIn : DecodeError
  -- `"error" in json_data` on a non-container value raises TypeError
  | typeErrorIndex : DecodeError
  -- `json_data["error"]` on a str/list raises TypeError

/-- The `for line in lines` body: strip each line, keep payloads of lines
starting with the data marker, `line[6:]` for the marker-plus-space form and
`line[5:]` for the bare marker form. -/
def dataLinesOfEvent (ev : List Char) : List (List Char) :=
  (splitNL ev).filterMap (fun line =>
    let l := pyStrip line
    if "data: ".toList.isPrefixOf l then some (l.drop 6)
    else if "data:".toList.isPrefixOf l then some (l.drop 5)
    else none)

/-- Inspection of the parsed JSON: `if "error" in json_data` followed by
`json_data["error"]` and `.get` calls, with Python's actual semantics of
`in`/indexing on each runtime type. -/
def inspectJson (j : JVal) : Except DecodeError JVal :=
  match j with
  | .obj fields =>
    match fields.lookup "error" with
    | some (.obj ef) =>
      .error (.rpcError (JVal.getD ef "code" (.str "unknown"))
                        (JVal.getD ef "message" (.str "unknown error")))
    | some _ => .error .attrErrorOnError
    | none => .ok j
  | .arr xs =>
    if xs.any (fun x => match x with | .str s => s == "error" | _ => false)
    then .error .typeErrorIndex else .ok j
  | .str s =>
    if strContains s.toList "error".toList then .error .typeErrorIndex else .ok j
  | _ => .error .typeErrorIn

/-- The `for event in events` loop of `_parse_sse_response` (the source
names `data_lines` and `data` with local variables; they are inlined
here). -/
def parseSSEAux : List (List Char) → Except DecodeError JVal
  | [] => .error .noDataFrame
  | ev :: rest =>
    if (pyStrip ev).isEmpty then parseSSEAux rest
    else if (dataLinesOfEvent ev).isEmpty then parseSSEAux rest
    else if (pyStrip (dataLinesOfEvent ev).flatten).isEmpty then parseSSEAux rest
    else
      match jsonLoads (dataLinesOfEvent ev).flatten with
      | none => .error (.invalidJson (dataLinesOfEvent ev).flatten)
      | some j => inspectJson j

/-- `MCPStreamingClient._parse_sse_response`: split the body on blank-line
event delimiters and scan the events. -/
def parse_sse_response (content : List Char) : Except DecodeError JVal :=
  parseSSEAux (splitNLNL content)

/-- `true` when an event contributes no non-empty data payload — the three
`continue` conditions of the event loop. -/
def eventPayloadEmpty (ev : List Char) : Bool :=
  (pyStrip ev).isEmpty || (dataLinesOfEvent ev).isEmpty ||
    (pyStrip (dataLinesOfEvent ev).flatten).isEmpty

/-! ### Health classification — `MCPStreamingClient.health_check`
(`src/agent/agent.py` lines 240-294; `src/backend/agent.py` lines 246-296
is identical).  The classification of the extracted `tool_result` value is
the pure heart of the method and is embedded as `health_check_classify`. -/

/-- Python `v == s` for a JSON value against a string literal: equal only
when `v` is that string. -/
def pyEqStr (v : JVal) (s : String) : Bool :=
  match v with
  | .str t => t == s
  | _ => false

/-- The branch cascade of `health_check` on `tool_result`, translated
branch for branch from the source. -/
def health_check_classify (tool_result : JVal) : Bool :=
  match tool_result with
  | .obj fields =>
    -- if "content" in tool_result and isinstance(tool_result["content"], list)
    match fields.lookup "content" with
    | some (.arr content) =>
      -- has_content and is_not_error
      !content.isEmpty && !(JVal.getD fields "isError" (.bool false)).truthy
    | _ =>
      -- elif "status" in tool_result
      if (fields.lookup "status").isSome then
        pyEqStr (JVal.getD fields "status" .null) "ok" ||
          pyEqStr (JVal.getD fields "status" .null) "healthy"
      else
        -- not tool_result.get("error") and not tool_result.get("isError", False)
        !(JVal.getD fields "error" .null).truthy &&
          !(JVal.getD fields "isError" (.bool false)).truthy
  | .str s => !(pyStrip s.toList).isEmpty  -- len(tool_result.strip()) > 0
  | .bool b => b
  | _ => true

/-- The `if "result" in result` wrapper of `health_check` around the
classification: a response without a `result` field is unhealthy. -/
def health_check_of_response (response : JVal) : Bool :=
  match response with
  | .obj fields =>
    match fields.lookup "result" with
    | some tool_result => health_check_classify tool_result
    | none => false
  | _ => false

/-! Spec-side classifier, written from the wording of the claim/spec table
(cases (a)-(f) in their stated precedence), to be compared with the
code-side `health_check_classify`. -/

/-- Case (a) applies: an object whose `content` key holds a list. -/
def specCaseContent (v : JVal) : Option (List JVal × JVal) :=
  match v with
  | .obj fields =>
    match fields.lookup "content" with
    | some (.arr l) => some (l, JVal.getD fields "isError" (.bool false))
    | _ => none
  | _ => none

/-- Case (b) applies: an object carrying a `status` key. -/
def specCaseStatus (v : JVal) : Option JVal :=
  match v with
  | .obj fields => fields.lookup "status"
  | _ => none

/-- Health classification as the specification words it: (a) object with a
`content` list — healthy iff non-empty and `isError` not truthy; else (b)
object with `status` — healthy iff it equals "ok" or "healthy"; else (c)
object — healthy iff neither `error` nor `isError` truthy; (d) string —
healthy iff non-empty after stripping; (e) boolean — its own value; (f)
anything else — healthy. -/
def spec_health_classify (v : JVal) : Bool :=
  match specCaseContent v with
  | some (l, isErr) => !l.isEmpty && !isErr.truthy
  | none =>
    match specCaseStatus v with
    | some st => pyEqStr st "ok" || pyEqStr st "healthy"
    | none =>
      match v with
      | .obj fields =>
        !(JVal.getD fields "error" .null).truthy &&
          !(JVal.getD fields "isError" (.bool false)).truthy
      | .str s => !(pyStrip s.toList).isEmpty
      | .bool b => b
      | _ => true

/-! ### Exceptions -/

/-- The Python exception classes relevant to this layer. -/
inductive PyKind where
  | runtimeError | valueError | typeError | attributeError
  | clientError  -- aiohttp.ClientError
  | otherError   -- any class outside the except clauses under study
deriving DecidableEq

/-- An exception instance: class plus `str(e)`. -/
structure PyExc where
  kind : PyKind
  msg : String
deriving DecidableEq

/-! ### Retrying invoker — `MCPStreamingClient.call_tool` and
`MCPStreamingClient.get_resource` (`src/agent/agent.py` lines 296-350).
The network interaction of each attempt is abstracted as an oracle
`transport : Nat → Except PyExc JVal`, giving attempt `i` either the
decoded JSON-RPC response object or the exception `_send_mcp_request`
raised. -/

/-- The visible outcome of a call: a returned value, a propagated
exception, or Python's implicit `None` when the `for` loop completes
without returning (possible when `retry_attempts` is 0). -/
inductive CallResult where
  | value (v : JVal) : CallResult
  | raised (e : PyExc) : CallResult
  | noneReturn : CallResult

/-- One attempt body: on a response, require the `result` field
(`raise RuntimeError(f"No result in response: ...")` otherwise). -/
def attemptResult (r : Except PyExc JVal) : Except PyExc JVal :=
  match r with
  | .error e => .error e
  | .ok resp =>
    match resp with
    | .obj fields =>
      match fields.lookup "result" with
      | some v => .ok v
      | none => .error ⟨.runtimeError, "No result in response"⟩
    | _ => .error ⟨.runtimeError, "No result in response"⟩

/-- `except (RuntimeError, ValueError)` — the classes `call_tool` catches. -/
def caughtByCallTool (e : PyExc) : Bool :=
  e.kind = .runtimeError || e.kind = .valueError

/-- `except (aiohttp.ClientError, RuntimeError, ValueError)` — the classes
`get_resource` catches. -/
def caughtByGetResource (e : PyExc) : Bool :=
  e.kind = .clientError || e.kind = .runtimeError || e.kind = .valueError

/-- The `for attempt in range(retry_attempts)` loop.  `i` is the current
attempt index, the recursion argument the number of range elements left;
returns the outcome plus the count of attempts performed and of
`asyncio.sleep(1)` delays taken (each one fixed time unit).  `caught`
selects the except clause (they differ between the two methods). -/
def retryLoop (caught : PyExc → Bool) (transport : Nat → Except PyExc JVal)
    (i : Nat) : Nat → CallResult × Nat × Nat
  | 0 => (.noneReturn, 0, 0)
  | remaining + 1 =>
    match attemptResult (transport i) with
    | .ok v => (.value v, 1, 0)
    | .error e =>
      if caught e then
        if remaining = 0 then (.raised e, 1, 0)  -- attempt == retry_attempts - 1
        else
          let (r, a, s) := retryLoop caught transport (i + 1) remaining
          (r, a + 1, s + 1)
      else (.raised e, 1, 0)  -- class not in the except clause: propagate

/-- `MCPStreamingClient.call_tool`: disabled-server guard, lazy session
negotiation (`initResult` is the outcome when `initialized` is false),
then the retry loop. -/
def call_tool (enabled initialized : Bool) (initResult : Except PyExc Unit)
    (transport : Nat → Except PyExc JVal) (retry_attempts : Nat) :
    CallResult × Nat × Nat :=
  if !enabled then (.raised ⟨.valueError, "Server is disabled"⟩, 0, 0)
  else if !initialized then
    match initResult with
    | .error e => (.raised e, 0, 0)
    | .ok _ => retryLoop caughtByCallTool transport 0 retry_attempts
  else retryLoop caughtByCallTool transport 0 retry_attempts

/-- `MCPStreamingClient.get_resource`: same shape as `call_tool` with the
wider except clause. -/
def get_resource (enabled initialized : Bool) (initResult : Except PyExc Unit)
    (transport : Nat → Except PyExc JVal) (retry_attempts : Nat) :
    CallResult × Nat × Nat :=
  if !enabled then (.raised ⟨.valueError, "Server is disabled"⟩, 0, 0)
  else if !initialized then
    match initResult with
    | .error e => (.raised e, 0, 0)
    | .ok _ => retryLoop caughtByGetResource transport 0 retry_attempts
  else retryLoop caughtByGetResource transport 0 retry_attempts

/-! ### Session state machine — `MCPStreamingClient` wire behaviour
(`src/agent/agent.py` lines 100-145, 193-235, and the method entry points).

The observable behaviour of a client session is the sequence of JSON-RPC
messages it posts.  `_send_mcp_request` attaches `self._get_next_request_id()`
to every request before posting; `_send_mcp_notification` posts a body with
no id.  Each request message below also records, as an observation, the
value of `self.initialized` at the moment of the send. -/

/-- A posted JSON-RPC message: a request (with its id and the session's
`initialized` flag at send time) or a notification. -/
inductive Msg where
  | request (method : String) (id : Nat) (sentWhileInitialized : Bool) : Msg
  | notification (method : String) : Msg
deriving DecidableEq

/-- The mutable session fields of `MCPStreamingClient.__init__` that the
claims concern (`request_id = 0`, `initialized = False`), plus the
read-only `config.enabled`. -/
structure ClientState where
  request_id : Nat
  initialized : Bool
  enabled : Bool
deriving DecidableEq

/-- `MCPStreamingClient._get_next_request_id`: increment, then return. -/
def _get_next_request_id (s : ClientState) : ClientState × Nat :=
  ({ s with request_id := s.request_id + 1 }, s.request_id + 1)

/-- Post `n` consecutive requests of one method through
`_send_mcp_request` (each takes the next id; none changes `initialized`). -/
def emitRequests (method : String) : ClientState → Nat → ClientState × List Msg
  | s, 0 => (s, [])
  | s, n + 1 =>
    let (s1, id) := _get_next_request_id s
    let (s2, ms) := emitRequests method s1 n
    (s2, .request method id s.initialized :: ms)

/-- `MCPStreamingClient._initialize_mcp_session`: no-op when already
initialized; otherwise send the `initialize` request (`initOk` is the
oracle for its outcome), then on success the `notifications/initialized`
notification (fire-and-forget), then set `initialized = True`.  On failure
the method re-raises; the returned flag is whether the handshake
completed. -/
def initialize_mcp_session (s : ClientState) (initOk : Bool) :
    ClientState × List Msg × Bool :=
  if s.initialized then (s, [], true)
  else
    let (s1, id) := _get_next_request_id s
    if initOk then
      ({ s1 with initialized := true },
       [.request "initialize" id s.initialized,
        .notification "notifications/initialized"], true)
    else (s1, [.request "initialize" id s.initialized], false)

/-- The client operations a caller can interleave on one session. -/
inductive OpKind where
  | health_check | callTool | getResource | list_tools | list_resources
deriving DecidableEq

/-- The JSON-RPC method each operation's main phase posts. -/
def OpKind.method : OpKind → String
  | .health_check => "tools/call"
  | .callTool => "tools/call"
  | .getResource => "resources/read"
  | .list_tools => "tools/list"
  | .list_resources => "resources/list"

/-- Whether the operation starts with the disabled-server guard
(`health_check` returns False, `call_tool`/`get_resource` raise; the two
list operations have no guard). -/
def OpKind.checksEnabled : OpKind → Bool
  | .health_check => true
  | .callTool => true
  | .getResource => true
  | .list_tools => false
  | .list_resources => false

/-- One invocation: which method was called, whether the `initialize` RPC
would succeed if the session still needs negotiating, and how many
main-phase requests the invocation ends up posting (1 for the list and
health operations, between 1 and `retry_attempts` for the retrying
invokers, depending on transport outcomes — the trace properties hold for
every such count). -/
structure Op where
  kind : OpKind
  initOk : Bool
  sends : Nat

/-- Run one operation: enabled guard, lazy handshake, then the main-phase
requests.  If the handshake attempt fails the operation stops (raising or
returning False) having posted only the `initialize` request. -/
def runOp (s : ClientState) (op : Op) : ClientState × List Msg :=
  if op.kind.checksEnabled && !s.enabled then (s, [])
  else
    let (s1, ms, ok) := initialize_mcp_session s op.initOk
    if ok then
      let (s2, ms2) := emitRequests op.kind.method s1 op.sends
      (s2, ms ++ ms2)
    else (s1, ms)

/-- Run a whole interleaving of operations on one session, collecting the
posted messages in order. -/
def runOps (s : ClientState) : List Op → ClientState × List Msg
  | [] => (s, [])
  | op :: ops =>
    let (s1, ms) := runOp s op
    let (s2, ms2) := runOps s1 ops
    (s2, ms ++ ms2)

/-- A fresh session for a server configuration: `request_id = 0`,
`initialized = False`. -/
def freshClient (enabled : Bool) : ClientState :=
  { request_id := 0, initialized := false, enabled := enabled }

/-- The ids attached to the requests of a message trace, in send order
(notifications carry no id). -/
def requestIds : List Msg → List Nat
  | [] => []
  | .request _ id _ :: rest => id :: requestIds rest
  | .notification _ :: rest => requestIds rest

/-- The trace property of claim C9: every request whose method is not
`initialize` was sent with `initialized = True`, and is preceded in the
trace by an `initialize` request and by the `notifications/initialized`
notification (the completed handshake). -/
def HandshakeFirst (msgs : List Msg) : Prop :=
  ∀ l1 m id f l2, msgs = l1 ++ Msg.request m id f :: l2 → m ≠ "initialize" →
    f = true ∧ (∃ i g, Msg.request "initialize" i g ∈ l1) ∧
      Msg.notification "notifications/initialized" ∈ l1

/-- Book-keeping invariant tying the `initialized` flag to the trace: once
the flag is set, the handshake messages are already in the trace. -/
def InitDone (s : ClientState) (msgs : List Msg) : Prop :=
  s.initialized = true → (∃ i g, Msg.request "initialize" i g ∈ msgs) ∧
    Msg.notification "notifications/initialized" ∈ msgs

/-! ### Server registry -/

/-- `agent_config.ToolConfig`. -/
structure ToolConfig where
  description : String
  keywords : List String

/-- `agent_config.ResourceConfig`. -/
structure ResourceConfig where
  description : String
  url : String
  keywords : List String

/-- The fields of the `agent_config.MCPServerConfig` dataclass used by the
orchestration code.  `tools` and `resources` are the name-keyed mappings
parsed by `MCPAgent._load_config`. -/
structure MCPServerConfig where
  name : String
  enabled : Bool
  retry_attempts : Nat
  tools : List (String × ToolConfig)
  resources : List (String × ResourceConfig)

/-- The `capabilities` property: tool names in mapping order. -/
def MCPServerConfig.capabilitiesTools (c : MCPServerConfig) : List String :=
  c.tools.map (·.1)

/-- The `capabilities` property: resource names in mapping order. -/
def MCPServerConfig.capabilitiesResources (c : MCPServerConfig) : List String :=
  c.resources.map (·.1)

/-! ### Health aggregator — `MCPAgent.health_check_all`
(`src/agent/agent.py` lines 518-541; identical in `src/backend/agent.py`).

`probe` abstracts one `check_server` task: entering the client context
(which performs session negotiation and can raise) followed by
`client.health_check()`.  `asyncio.gather(..., return_exceptions=True)`
yields the per-task outcomes in task order; the loop then inserts an entry
only for non-exception outcomes, so the function itself never raises —
which its total Lean type also expresses. -/
def health_check_all (servers : List (String × MCPServerConfig))
    (probe : String → Except PyExc Bool) : List (String × Bool) :=
  (servers.filter (fun sc => sc.2.enabled)).filterMap (fun sc =>
    match probe sc.1 with
    | .ok healthy => some (sc.1, healthy)
    | .error _ => none)

/-! ### Relevance matcher — `MCPAgent._tool_relevant_to_query` and
`MCPAgent._resource_relevant_to_query` (`src/agent/agent.py` lines
683-710). -/

/-- The Python attribute lookup `server_config.get`.
`agent_config.MCPServerConfig` is a plain dataclass: it defines `name`,
`tools`, `resources`, ... and the properties `base_url`/`capabilities`,
but no attribute named `get`, so this lookup raises `AttributeError` on
every instance. -/
def MCPServerConfig.getAttrGet (_ : MCPServerConfig) : Except PyExc JVal :=
  .error ⟨.attributeError, "MCPServerConfig object has no attribute get"⟩

/-- `MCPAgent._tool_relevant_to_query`: fetch the server config (False for
an unknown id), then evaluate `server_config.get("tools", {})` — which
raises `AttributeError` (see `MCPServerConfig.getAttrGet`), so the keyword
comparison in the remainder of the method is unreachable. -/
def _tool_relevant_to_query (servers : List (String × MCPServerConfig))
    (server_id tool_name user_query : String) : Except PyExc Bool :=
  match servers.lookup server_id with
  | none => .ok false
  | some server_config => do
    let tools_config ← server_config.getAttrGet
    -- dead code from here on, kept to mirror the source:
    let tool_config := match tools_config with
      | .obj fs => JVal.getD fs tool_name (.obj [])
      | _ => .obj []
    let keywords := match tool_config with
      | .obj fs => JVal.getD fs "keywords" (.arr [])
      | _ => .arr []
    let query_lower := pyLower user_query.toList
    match keywords with
    | .arr ks => .ok (ks.any (fun k => match k with
        | .str kw => strContains query_lower (pyLower kw.toList)
        | _ => false))
    | _ => .ok false

/-- `MCPAgent._resource_relevant_to_query`: identical shape, reading
`server_config.get("resources", {})` — the same `AttributeError`.  (The
fetch loop never actually calls this method: it tests resources with
`_tool_relevant_to_query`.) -/
def _resource_relevant_to_query (servers : List (String × MCPServerConfig))
    (server_id resource_name user_query : String) : Except PyExc Bool :=
  match servers.lookup server_id with
  | none => .ok false
  | some server_config => do
    let resources_config ← server_config.getAttrGet
    let resource_config := match resources_config with
      | .obj fs => JVal.getD fs resource_name (.obj [])
      | _ => .obj []
    let keywords := match resource_config with
      | .obj fs => JVal.getD fs "keywords" (.arr [])
      | _ => .arr []
    let query_lower := pyLower user_query.toList
    match keywords with
    | .arr ks => .ok (ks.any (fun k => match k with
        | .str kw => strContains query_lower (pyLower kw.toList)
        | _ => false))
    | _ => .ok false

/-- The intended relevance test, as the spec words it (`is_relevant`):
case-insensitive substring match of any configured keyword of the item
against the query; no match when the keyword list is empty.  Stated here
for comparison with what the source methods actually do. -/
def is_relevant_spec (keywords : List String) (user_query : String) : Bool :=
  keywords.any (fun kw => strContains (pyLower user_query.toList) (pyLower kw.toList))

/-! ### Data gathering — `MCPAgent._fetch_relevant_mcp_data`
(`src/agent/agent.py` lines 712-742).  `toolFetch`/`resourceFetch`
abstract `call_server_tool`/`get_server_resource`; per-item fetch failures
of the classes in the `except` clauses are swallowed, anything raised by
the relevance test itself is not inside a `try` and propagates. -/

/-- The classes the fetch loops catch around each item:
`(RuntimeError, ValueError, aiohttp.ClientError)`. -/
def caughtByFetchLoop (e : PyExc) : Bool :=
  e.kind = .runtimeError || e.kind = .valueError || e.kind = .clientError

/-- The inner `for tool_name in server_config.capabilities...` loop over one
server's item names; `accData` and `accSources` thread the accumulators. -/
def fetchItemsLoop (servers : List (String × MCPServerConfig))
    (fetch : String → String → Except PyExc JVal)
    (server_id server_name user_query : String)
    (accData : List (String × JVal)) (accSources : List String) :
    List String → Except PyExc (List (String × JVal) × List String)
  | [] => .ok (accData, accSources)
  | item :: rest => do
    let relevant ← _tool_relevant_to_query servers server_id item user_query
    if relevant then
      match fetch server_id item with
      | .ok result =>
        fetchItemsLoop servers fetch server_id server_name user_query
          (accData ++ [(item, result)])
          (accSources ++ [server_name ++ " - " ++ item]) rest
      | .error e =>
        if caughtByFetchLoop e then
          fetchItemsLoop servers fetch server_id server_name user_query
            accData accSources rest
        else .error e
    else
      fetchItemsLoop servers fetch server_id server_name user_query
        accData accSources rest

/-- The outer per-server loop of `_fetch_relevant_mcp_data`: skip servers
that are disabled or not healthy, then run the tools loop and the
resources loop (both of which test relevance with
`_tool_relevant_to_query` — note the resources loop does too). -/
def fetchServersLoop (servers : List (String × MCPServerConfig))
    (health : List (String × Bool))
    (toolFetch resourceFetch : String → String → Except PyExc JVal)
    (user_query : String)
    (accData : List (String × List (String × JVal))) (accSources : List String) :
    List (String × MCPServerConfig) →
      Except PyExc (List (String × List (String × JVal)) × List String)
  | [] => .ok (accData, accSources)
  | (server_id, cfg) :: rest => do
    if !cfg.enabled || !((health.lookup server_id).getD false) then
      fetchServersLoop servers health toolFetch resourceFetch user_query
        accData accSources rest
    else do
      let (toolData, sources1) ←
        fetchItemsLoop servers toolFetch server_id cfg.name user_query
          [] accSources cfg.capabilitiesTools
      let (resData, sources2) ←
        fetchItemsLoop servers resourceFetch server_id cfg.name user_query
          toolData sources1 cfg.capabilitiesResources
      let accData2 := if resData.isEmpty then accData else accData ++ [(server_id, resData)]
      fetchServersLoop servers health toolFetch resourceFetch user_query
        accData2 sources2 rest

/-- `MCPAgent._fetch_relevant_mcp_data`: run `health_check_all`, then the
per-server fetch loops. -/
def _fetch_relevant_mcp_data (servers : List (String × MCPServerConfig))
    (probe : String → Except PyExc Bool)
    (toolFetch resourceFetch : String → String → Except PyExc JVal)
    (user_query : String) :
    Except PyExc (List (String × List (String × JVal)) × List String) :=
  fetchServersLoop servers (health_check_all servers probe)
    toolFetch resourceFetch user_query [] [] servers

/-! ### Orchestrator boundary — `MCPAgent.generate_response`
(`src/agent/agent.py` lines 578-650).  The Gemini calls and the gathering
step are abstracted as outcome parameters. -/

/-- The result dictionary of `generate_response`. -/
structure QueryResult where
  response : String
  sources : List String
  mcp_data : JVal

/-- The `try` body of `generate_response`: initial generation, optional
gathering, re-generation when data was gathered. -/
def generate_response_try (include_mcp_data : Bool)
    (genInitial : Except PyExc String)
    (gatherOutcome : Except PyExc (JVal × List String))
    (genEnhanced : Except PyExc String) : Except PyExc QueryResult := do
  let response_text ← genInitial
  if include_mcp_data then
    let (mcp_data, sources) ← gatherOutcome
    if mcp_data.truthy then
      let enhanced ← genEnhanced
      .ok ⟨enhanced, sources, mcp_data⟩
    else .ok ⟨response_text, sources, mcp_data⟩
  else .ok ⟨response_text, [], .obj []⟩

/-- The degraded user-facing message the handler builds from `str(e)`
(the source embeds the query and error text in an f-string; the special
branch fires when the text contains "slice("). -/
def degradedMessage (user_query error_str : String) : String :=
  if strContains error_str.toList "slice(".toList then
    "An internal error occurred while processing your request. " ++
    "It appears the server returned an unexpected object (like a Python slice). " ++
    "This is likely a backend bug. Please contact support with your query: " ++
    user_query ++ "; Error detail: " ++ error_str
  else
    "I encountered an error processing your request: " ++ error_str

/-- The classes `generate_response` catches: `(RuntimeError, ValueError)`. -/
def caughtByGenerateResponse (e : PyExc) : Bool :=
  e.kind = .runtimeError || e.kind = .valueError

/-- `MCPAgent.generate_response`: the `try` body with its
`except (RuntimeError, ValueError)` boundary converting a caught error
into the degraded result; exceptions of any other class propagate. -/
def generate_response (include_mcp_data : Bool) (user_query : String)
    (genInitial : Except PyExc String)
    (gatherOutcome : Except PyExc (JVal × List String))
    (genEnhanced : Except PyExc String) : Except PyExc QueryResult :=
  match generate_response_try include_mcp_data genInitial gatherOutcome genEnhanced with
  | .ok r => .ok r
  | .error e =>
    if caughtByGenerateResponse e then
      .ok ⟨degradedMessage user_query e.msg, [], .obj [("error", .str e.msg)]⟩
    else .error e

/-! ### Concrete inputs used by counterexamples and witnesses -/

/-- A registry of three enabled servers, as in the `check_all` spec
scenario. -/
def demoServers : List (String × MCPServerConfig) :=
  [("A", ⟨"Server A", true, 3, [], []⟩),
   ("B", ⟨"Server B", true, 3, [], []⟩),
   ("C", ⟨"Server C", true, 3, [], []⟩)]

/-- A probe where server B's client setup raises (the wrapped negotiation
failure `RuntimeError` of `_initialize_mcp_session`) and A's and C's
probes complete. -/
def demoProbe : String → Except PyExc Bool := fun sid =>
  if sid == "B" then .error ⟨.runtimeError, "MCP session initialization failed"⟩
  else .ok true

/-- A registry whose one enabled server configures a
`nursing_home_dataset` resource with keyword "nursing" (the `gather`
spec scenario). -/
def demoRegistry : List (String × MCPServerConfig) :=
  [("medicare_server",
    ⟨"Medicare MCP Server", true, 3, [],
     [("nursing_home_dataset", ⟨"Nursing home dataset", "", ["nursing"]⟩)]⟩)]

/-- The spec scenario's query. -/
def demoQuery : String := "what nursing home data is available?"

/-! ## Theorems -/

/-- C2: for every health-tool response value, the classification performed
by `health_check` agrees with the spec table's precedence — (a) object with
a `content` list: healthy iff non-empty and `isError` not truthy; else (b)
object with `status`: healthy iff "ok" or "healthy" (so status "down" is
unhealthy); else (c) object: healthy iff neither `error` nor `isError`
truthy; (d) string: healthy iff non-empty after stripping; (e) boolean:
itself; (f) anything else: healthy — including the spec's listed instances. -/
theorem health_classification_matches_spec :
    (∀ v, health_check_classify v = spec_health_classify v) ∧
    health_check_classify
      (.obj [("content", .arr [.obj [("text", .str "x")]]), ("isError", .bool false)]) = true ∧
    health_check_classify (.obj [("status", .str "healthy")]) = true ∧
    health_check_classify (.obj [("status", .str "down")]) = false ∧
    health_check_classify (.str "") = false ∧
    health_check_classify (.str "ok") = true ∧
    health_check_classify (.bool false) = false := by
  refine ⟨fun v => ?_, rfl, rfl, rfl, rfl, rfl, rfl⟩
  cases v with
  | obj fields =>
    unfold health_check_classify spec_health_classify specCaseContent specCaseStatus
    rcases hc : fields.lookup "content" with _ | cv
    · rcases hs : fields.lookup "status" with _ | sv <;> simp [hc, hs, JVal.getD]
    · cases cv <;> rcases hs : fields.lookup "status" with _ | sv <;>
        simp [hc, hs, JVal.getD]
  | null => rfl
  | bool b => rfl
  | num n => rfl
  | str s => rfl
  | arr xs => rfl

/-- The retry loop under an always-failing transport whose errors are all
of a caught class: it runs all remaining attempts, sleeps between
consecutive ones, and raises the last attempt's error unmodified. -/
theorem retryLoop_all_fail (caught : PyExc → Bool)
    (transport : Nat → Except PyExc JVal) (errf : Nat → PyExc)
    (herr : ∀ i, transport i = .error (errf i))
    (hc : ∀ i, caught (errf i) = true) :
    ∀ remaining i,
      retryLoop caught transport i (remaining + 1) =
        (.raised (errf (i + remaining)), remaining + 1, remaining) := by
  intro remaining
  induction remaining with
  | zero =>
    intro i
    rw [retryLoop, herr i]
    simp [attemptResult, hc i]
  | succ m ih =>
    intro i
    rw [retryLoop, herr i]
    simp only [attemptResult, hc i, if_true]
    rw [if_neg (by omega)]
    rw [ih (i + 1)]
    have h1 : i + 1 + m = i + (m + 1) := by omega
    simp [h1]

/-- C5 counterexample: an always-failing transport whose errors are NOT of
the classes `call_tool`'s except clause catches — here the uncaught
`TypeError` that `_parse_sse_response` itself raises on a payload such as
`5` — makes `call_tool` with `retry_attempts = 3` perform exactly ONE
attempt, with no delay and no further retries, propagating that first
attempt's error: not the N attempts / N-1 delays / N-th error the claim
states for every always-failing transport. -/
theorem call_tool_uncaught_class_single_attempt :
    call_tool true true (.ok ())
        (fun _ => .error ⟨.typeError, "argument of type int is not iterable"⟩)
        3 =
      (.raised ⟨.typeError, "argument of type int is not iterable"⟩, 1, 0) :=
  rfl

/-- C5 amended: for an enabled, negotiated server with `retry_attempts = N`
(N ≥ 1) and a transport failing every attempt with errors of the classes
`call_tool`'s `except (RuntimeError, ValueError)` clause catches — the
classes `_send_mcp_request` itself raises for transport and protocol
failures — `call_tool` performs exactly N attempts, sleeps the fixed
one-unit delay N-1 times (between consecutive attempts), swallows and logs
the first N-1 failures, and raises the N-th attempt's error object
unmodified.  (A failure of any other class — e.g. the decoder's
`TypeError`, or a timeout's `asyncio.TimeoutError` — is re-raised after
its attempt with no retry; see the counterexample.) -/
theorem call_tool_retries_exactly (N : Nat) (transport : Nat → Except PyExc JVal)
    (errf : Nat → PyExc) (hN : 1 ≤ N)
    (herr : ∀ i, transport i = .error (errf i))
    (hkind : ∀ i, (errf i).kind = .runtimeError ∨ (errf i).kind = .valueError) :
    call_tool true true (.ok ()) transport N =
      (.raised (errf (N - 1)), N, N - 1) := by
  obtain ⟨n, rfl⟩ : ∃ n, N = n + 1 := ⟨N - 1, by omega⟩
  have hc : ∀ i, caughtByCallTool (errf i) = true := by
    intro i
    rcases hkind i with h | h <;> simp [caughtByCallTool, h]
  show retryLoop caughtByCallTool transport 0 (n + 1) = _
  rw [retryLoop_all_fail caughtByCallTool transport errf herr hc n 0]
  simp

/-- Witness for C5 at N = 3 with per-attempt error objects. -/
theorem call_tool_retries_exactly_witness :
    call_tool true true (.ok ())
        (fun i => .error ⟨.runtimeError, toString i⟩) 3 =
      (.raised ⟨.runtimeError, toString 2⟩, 3, 2) := by
  have h := call_tool_retries_exactly 3
    (fun i => .error ⟨.runtimeError, toString i⟩)
    (fun i => ⟨.runtimeError, toString i⟩)
    (by omega) (fun i => rfl) (fun i => Or.inl rfl)
  simpa using h

/-- C10: for an enabled, negotiated server with `retry_attempts = 0`, the
`range(0)` loop bodies of `call_tool` and `get_resource` never run: zero
RPC attempts, zero delays, and the implicit Python `None` is returned — no
JSON value and no raised error. -/
theorem zero_retry_attempts_return_none (initRes : Except PyExc Unit)
    (transport : Nat → Except PyExc JVal) :
    call_tool true true initRes transport 0 = (.noneReturn, 0, 0) ∧
      get_resource true true initRes transport 0 = (.noneReturn, 0, 0) :=
  ⟨rfl, rfl⟩

/-- C1 counterexample: over three enabled servers where B's probe raises
and A's and C's complete, `health_check_all` returns a map with NO entry
for B at all — not an entry `B ↦ false` as the claim states. -/
theorem health_check_all_omits_failing_server :
    health_check_all demoServers demoProbe = [("A", true), ("C", true)] ∧
      (health_check_all demoServers demoProbe).lookup "B" = none := by
  exact ⟨rfl, rfl⟩

/-- C1 amended: over three enabled servers A, B, C where B's probe raises
(any exception) and A's and C's probes complete with results `ra`, `rc`,
`health_check_all` returns exactly `{A ↦ ra, C ↦ rc}` — the failing server
is omitted from the map (its exception is logged), and the call itself
never raises (the model's total type). -/
theorem health_check_all_partial_failure (ra rc : Bool) (eB : PyExc) :
    health_check_all demoServers
        (fun sid => if sid == "A" then .ok ra
                    else if sid == "B" then .error eB else .ok rc) =
      [("A", ra), ("C", rc)] := by
  rfl

/-- C3: evaluating the gather path of the spec scenario — an enabled,
healthy server whose `nursing_home_dataset` resource lists keyword
"nursing", query "what nursing home data is available?".  The relevance
helper raises `AttributeError` (dict-style `.get` on the
`MCPServerConfig` dataclass), so `_fetch_relevant_mcp_data` propagates
that error instead of fetching the resource — even though the intended
keyword test (`is_relevant_spec`, per the spec's `is_relevant`) matches. -/
theorem fetch_relevant_raises_attribute_error
    (toolFetch resourceFetch : String → String → Except PyExc JVal) :
    _fetch_relevant_mcp_data demoRegistry (fun _ => .ok true)
        toolFetch resourceFetch demoQuery =
      .error ⟨.attributeError, "MCPServerConfig object has no attribute get"⟩ ∧
    _tool_relevant_to_query demoRegistry "medicare_server"
        "nursing_home_dataset" demoQuery =
      .error ⟨.attributeError, "MCPServerConfig object has no attribute get"⟩ ∧
    _resource_relevant_to_query demoRegistry "medicare_server"
        "nursing_home_dataset" demoQuery =
      .error ⟨.attributeError, "MCPServerConfig object has no attribute get"⟩ ∧
    is_relevant_spec ["nursing"] demoQuery = true := by
  refine ⟨rfl, rfl, rfl, ?_⟩
  rfl

/-- C4 counterexample: when the data-gathering step raises an error outside
`(RuntimeError, ValueError)` — here the `AttributeError` that
`_fetch_relevant_mcp_data` actually produces (see C3) —
`generate_response` propagates it to the caller instead of converting it
into a degraded response. -/
theorem generate_response_propagates_uncaught :
    generate_response true "what nursing home data is available?"
        (.ok "initial answer")
        (.error ⟨.attributeError, "MCPServerConfig object has no attribute get"⟩)
        (.ok "enhanced answer") =
      .error ⟨.attributeError, "MCPServerConfig object has no attribute get"⟩ := by
  rfl

/-- C4 amended: any error of class `RuntimeError` or `ValueError` raised by
the generation calls or the gathering step is caught at the
`generate_response` boundary and converted into a returned degraded
textual response that contains the error detail (with empty sources and an
error entry in `mcp_data`); errors of other classes propagate. -/
theorem generate_response_catches_runtime_value_errors
    (include_mcp : Bool) (q : String) (gi : Except PyExc String)
    (go : Except PyExc (JVal × List String)) (ge : Except PyExc String)
    (e : PyExc)
    (hbody : generate_response_try include_mcp gi go ge = .error e)
    (hkind : e.kind = .runtimeError ∨ e.kind = .valueError) :
    generate_response include_mcp q gi go ge =
      .ok ⟨degradedMessage q e.msg, [], .obj [("error", .str e.msg)]⟩ ∧
      ∃ pre, degradedMessage q e.msg = pre ++ e.msg := by
  constructor
  · unfold generate_response
    rw [hbody]
    have hcaught : caughtByGenerateResponse e = true := by
      rcases hkind with h | h <;> simp [caughtByGenerateResponse, h]
    simp [hcaught]
  · unfold degradedMessage
    by_cases h : strContains e.msg.toList "slice(".toList = true
    · rw [if_pos h]
      exact ⟨_, rfl⟩
    · rw [if_neg h]
      exact ⟨_, rfl⟩

/-- Witness for C4 amended: a gathering failure of class `RuntimeError` is
converted into the degraded response. -/
theorem generate_response_catches_witness :
    generate_response true "hi" (.ok "initial")
        (.error ⟨.runtimeError, "boom"⟩) (.ok "enhanced") =
      .ok ⟨degradedMessage "hi" "boom", [], .obj [("error", .str "boom")]⟩ ∧
      ∃ pre, degradedMessage "hi" "boom" = pre ++ "boom" := by
  exact generate_response_catches_runtime_value_errors true "hi" (.ok "initial")
    (.error ⟨.runtimeError, "boom"⟩) (.ok "enhanced") ⟨.runtimeError, "boom"⟩
    rfl (Or.inl rfl)

/-! Helper lemmas about the Python string primitives, used for the SSE
decoder claims. -/

/-- A newline-free string is a single `split("\n\n")` event. -/
theorem splitNLNL_no_nl (s : List Char) (h : '\n' ∉ s) : splitNLNL s = [s] := by
  induction s with
  | nil => rfl
  | cons c rest ih =>
    cases rest with
    | nil => rfl
    | cons c2 rest2 =>
      have hc : c ≠ '\n' := by intro he; exact h (he ▸ List.mem_cons_self c _)
      have h2 : '\n' ∉ c2 :: rest2 := fun hm => h (List.mem_cons_of_mem c hm)
      rw [splitNLNL]
      rw [if_neg (by simp [hc])]
      rw [ih h2]

/-- A newline-free string is a single `split("\n")` line. -/
theorem splitNL_no_nl (s : List Char) (h : '\n' ∉ s) : splitNL s = [s] := by
  induction s with
  | nil => rfl
  | cons c rest ih =>
    have hc : c ≠ '\n' := by intro he; exact h (he ▸ List.mem_cons_self c _)
    have h2 : '\n' ∉ rest := fun hm => h (List.mem_cons_of_mem c hm)
    rw [splitNL]
    rw [if_neg hc]
    rw [ih h2]

/-- If `dropWhile` leaves a non-empty list unchanged, its head fails the
predicate. -/
theorem head_fails_of_dropWhile_eq_self {p : α → Bool} {c : α} {t : List α}
    (h : (c :: t).dropWhile p = c :: t) : p c = false := by
  rw [List.dropWhile_eq_self_iff] at h
  have h0 := h (by simp)
  simpa using h0

/-- Stripping a string that is already clean at both ends is the
identity. -/
theorem pyStrip_eq_self {s : List Char}
    (hfront : s.dropWhile isPySpace = s)
    (hback : s.reverse.dropWhile isPySpace = s.reverse) : pyStrip s = s := by
  rw [pyStrip, hfront, hback, List.reverse_reverse]

/-- Stripping `m ++ p` is the identity when `m` starts with a non-space
character and `p` ends with one. -/
theorem pyStrip_append_eq_self {m p : List Char}
    (hm : m.dropWhile isPySpace = m) (hm0 : m ≠ [])
    (hp : p.reverse.dropWhile isPySpace = p.reverse) (hp0 : p ≠ []) :
    pyStrip (m ++ p) = m ++ p := by
  obtain ⟨c, t, rfl⟩ : ∃ c t, m = c :: t := by
    cases m with
    | nil => exact absurd rfl hm0
    | cons c t => exact ⟨c, t, rfl⟩
  have hc : isPySpace c = false := head_fails_of_dropWhile_eq_self hm
  obtain ⟨d, u, hd⟩ : ∃ d u, p.reverse = d :: u := by
    cases hrev : p.reverse with
    | nil => simp at hrev; exact absurd hrev hp0
    | cons d u => exact ⟨d, u, rfl⟩
  have hdns : isPySpace d = false := head_fails_of_dropWhile_eq_self (hd ▸ hp)
  have step1 : List.dropWhile isPySpace (c :: t ++ p) = c :: t ++ p :=
    List.dropWhile_cons_of_neg (by simp [hc])
  have hrev : (c :: t ++ p).reverse = d :: (u ++ (c :: t).reverse) := by
    rw [List.reverse_append, hd]
    rfl
  have step2 : List.dropWhile isPySpace (c :: t ++ p).reverse =
      (c :: t ++ p).reverse := by
    rw [hrev]
    exact List.dropWhile_cons_of_neg (by simp [hdns])
  rw [pyStrip, step1, step2, List.reverse_reverse]

/-- A list is a prefix (in the Boolean sense) of itself followed by
anything. -/
theorem isPrefixOf_self_append [BEq α] [LawfulBEq α] (a b : List α) :
    a.isPrefixOf (a ++ b) = true := by
  induction a with
  | nil => cases b <;> rfl
  | cons c t ih => simp [List.isPrefixOf, ih]

/-- The data lines of a single-line event `"data: " ++ p` (marker plus
space form) are exactly `[p]`. -/
theorem dataLines_marker_space (p : List Char)
    (hnl : '\n' ∉ p)
    (hback : p.reverse.dropWhile isPySpace = p.reverse) (hne : p ≠ []) :
    dataLinesOfEvent ("data: ".toList ++ p) = [p] := by
  have hbody_nl : '\n' ∉ "data: ".toList ++ p := by
    intro hm
    rcases List.mem_append.mp hm with h | h
    · exact absurd h (by decide)
    · exact hnl h
  rw [dataLinesOfEvent, splitNL_no_nl _ hbody_nl]
  simp only [List.filterMap_cons, List.filterMap_nil]
  rw [pyStrip_append_eq_self (by decide) (by decide) hback hne]
  rw [if_pos (isPrefixOf_self_append "data: ".toList p)]
  rw [List.drop_left' (by decide)]

/-- The data lines of a single-line event `"data:" ++ p` (bare marker
form, payload not starting with a space) are exactly `[p]`. -/
theorem dataLines_marker_bare (p : List Char)
    (hnl : '\n' ∉ p) (hfront : p.dropWhile isPySpace = p)
    (hback : p.reverse.dropWhile isPySpace = p.reverse) (hne : p ≠ []) :
    dataLinesOfEvent ("data:".toList ++ p) = [p] := by
  have hbody_nl : '\n' ∉ "data:".toList ++ p := by
    intro hm
    rcases List.mem_append.mp hm with h | h
    · exact absurd h (by decide)
    · exact hnl h
  obtain ⟨c, t, rfl⟩ : ∃ c t, p = c :: t := by
    cases p with
    | nil => exact absurd rfl hne
    | cons c t => exact ⟨c, t, rfl⟩
  have hcns : isPySpace c = false := head_fails_of_dropWhile_eq_self hfront
  have hcsp : (' ' == c) = false := by
    cases hcc : ' ' == c
    · rfl
    · exfalso
      have hce : ' ' = c := beq_iff_eq.mp hcc
      rw [← hce] at hcns
      simp [isPySpace] at hcns
  rw [dataLinesOfEvent, splitNL_no_nl _ hbody_nl]
  simp only [List.filterMap_cons, List.filterMap_nil]
  rw [pyStrip_append_eq_self (by decide) (by decide) hback hne]
  have hcne : ¬ (' ' = c) := by
    intro h
    rw [← h] at hcns
    simp [isPySpace] at hcns
  rw [if_neg (by simp [List.isPrefixOf, hcne])]
  rw [if_pos (isPrefixOf_self_append "data:".toList (c :: t))]
  rw [List.drop_left' (by decide)]

/-- Scanning a one-event body whose data lines join to a parseable payload
reaches the JSON inspection of the parsed value. -/
theorem parseSSEAux_single_decodes (body p : List Char) (j : JVal)
    (hstrip : pyStrip body = body) (hne : body ≠ [])
    (hdl : dataLinesOfEvent body = [p])
    (hp : pyStrip p = p) (hpne : p ≠ [])
    (hjson : jsonLoads p = some j) :
    parseSSEAux [body] = inspectJson j := by
  rw [parseSSEAux]
  have h1 : (pyStrip body).isEmpty = false := by
    rw [hstrip]
    simpa using hne
  rw [if_neg (by simp [h1])]
  rw [if_neg (by simp [hdl])]
  have hflat : (dataLinesOfEvent body).flatten = p := by simp [hdl]
  rw [if_neg (by rw [hflat, hp]; simpa using hpne)]
  rw [hflat, hjson]

/-- C6 counterexample: the body `"data: 5"` is one event with one
data-marker line whose payload `5` is valid JSON without an `error` key,
yet the decoder does not return the value `5`: the membership test
`"error" in json_data` raises `TypeError` on a number, which nothing in
the function catches. -/
theorem parse_sse_number_payload_raises :
    parse_sse_response "data: 5".toList = .error .typeErrorIn ∧
      parse_sse_response "data: 5".toList ≠ .ok (.num 5) := by
  refine ⟨rfl, fun h => ?_⟩
  rw [show parse_sse_response "data: 5".toList = .error .typeErrorIn from rfl] at h
  exact Except.noConfusion h

/-- C6 amended: for every SSE body consisting of exactly one event with
one data-marker line whose payload is valid JSON parsing to an object
without an `error` key (newline-free, non-empty, whitespace-clean at both
ends, as a serialized JSON object is), the decoder returns that JSON
object unchanged — for both the marker-plus-space and the bare marker
forms.  (For payloads parsing to numbers, booleans or `null` the
membership test on the parsed value raises `TypeError` instead; see the
counterexample.) -/
theorem parse_sse_single_event_object (p : List Char)
    (fields : List (String × JVal))
    (hnl : '\n' ∉ p)
    (hfront : p.dropWhile isPySpace = p)
    (hback : p.reverse.dropWhile isPySpace = p.reverse)
    (hne : p ≠ [])
    (hjson : jsonLoads p = some (.obj fields))
    (herrkey : fields.lookup "error" = none) :
    parse_sse_response ("data: ".toList ++ p) = .ok (.obj fields) ∧
      parse_sse_response ("data:".toList ++ p) = .ok (.obj fields) := by
  have hpstrip : pyStrip p = p := pyStrip_eq_self hfront hback
  have hinspect : inspectJson (.obj fields) = .ok (.obj fields) := by
    rw [inspectJson]
    simp [herrkey]
  constructor
  · have hbody_nl : '\n' ∉ "data: ".toList ++ p := by
      intro hm
      rcases List.mem_append.mp hm with h | h
      · exact absurd h (by decide)
      · exact hnl h
    rw [parse_sse_response, splitNLNL_no_nl _ hbody_nl]
    rw [parseSSEAux_single_decodes ("data: ".toList ++ p) p (.obj fields)
      (pyStrip_append_eq_self (by decide) (by decide) hback hne)
      (by simp)
      (dataLines_marker_space p hnl hback hne) hpstrip hne hjson]
    exact hinspect
  · have hbody_nl : '\n' ∉ "data:".toList ++ p := by
      intro hm
      rcases List.mem_append.mp hm with h | h
      · exact absurd h (by decide)
      · exact hnl h
    rw [parse_sse_response, splitNLNL_no_nl _ hbody_nl]
    rw [parseSSEAux_single_decodes ("data:".toList ++ p) p (.obj fields)
      (pyStrip_append_eq_self (by decide) (by decide) hback hne)
      (by simp)
      (dataLines_marker_bare p hnl hfront hback hne) hpstrip hne hjson]
    exact hinspect

/-- Witness for C6 amended at the payload `\x7b\x7d` (an empty JSON
object). -/
theorem parse_sse_single_event_object_witness :
    parse_sse_response "data: \x7b\x7d".toList = .ok (.obj []) ∧
      parse_sse_response "data:\x7b\x7d".toList = .ok (.obj []) := by
  have h := parse_sse_single_event_object "\x7b\x7d".toList []
    (by decide) (by decide) (by decide) (by decide) rfl rfl
  exact ⟨h.1, h.2⟩

/-- The JSON inspection step never produces the no-data-frame error. -/
theorem inspectJson_ne_noDataFrame (j : JVal) :
    inspectJson j ≠ .error .noDataFrame := by
  unfold inspectJson
  split
  · split <;> simp
  · split <;> simp
  · split <;> simp
  · simp

/-- C7 counterexample: the body `"data: \x7bbad"` contains no event with
parseable JSON (its one data payload is non-empty but invalid), yet the
decoder raises the invalid-JSON error — `RuntimeError("Invalid JSON in
response: ...")` — not the no-data-frame error the claim requires. -/
theorem parse_sse_invalid_json_error :
    parse_sse_response "data: \x7bbad".toList =
        .error (.invalidJson "\x7bbad".toList) ∧
      parse_sse_response "data: \x7bbad".toList ≠ .error .noDataFrame := by
  refine ⟨rfl, fun h => ?_⟩
  rw [show parse_sse_response "data: \x7bbad".toList =
      .error (.invalidJson "\x7bbad".toList) from rfl] at h
  simp at h

/-- C7 amended: the decoder raises the no-data-frame error
(`RuntimeError("No valid JSON data found in SSE response")`) exactly for
the bodies in which no event yields a non-empty data payload; when some
event does yield a non-empty payload, the scan stops there and either
returns its parsed value or raises the payload-specific error (invalid
JSON, the remote JSON-RPC error, or a `TypeError`), never the
no-data-frame error. -/
theorem parse_sse_no_data_frame_iff (content : List Char) :
    parse_sse_response content = .error .noDataFrame ↔
      (splitNLNL content).all eventPayloadEmpty = true := by
  rw [parse_sse_response]
  induction splitNLNL content with
  | nil => simp [parseSSEAux]
  | cons ev rest ih =>
    rw [parseSSEAux]
    by_cases h1 : (pyStrip ev).isEmpty
    · rw [if_pos h1, ih]
      simp [eventPayloadEmpty, h1]
    · rw [if_neg h1]
      by_cases h2 : (dataLinesOfEvent ev).isEmpty
      · rw [if_pos h2, ih]
        simp [eventPayloadEmpty, h2]
      · rw [if_neg h2]
        by_cases h3 : (pyStrip (dataLinesOfEvent ev).flatten).isEmpty
        · rw [if_pos h3, ih]
          simp [eventPayloadEmpty, h3]
        · rw [if_neg h3]
          have hall : eventPayloadEmpty ev = false := by
            simp [eventPayloadEmpty, h1, h2, h3]
          cases hj : jsonLoads (dataLinesOfEvent ev).flatten with
          | none => simp [hall]
          | some j => simp [hall, inspectJson_ne_noDataFrame j]

/-! Lemmas about the session trace model. -/

/-- Emitting `n` requests advances only the id counter, by `n`. -/
theorem emitRequests_state (method : String) (s : ClientState) (n : Nat) :
    (emitRequests method s n).1 = { s with request_id := s.request_id + n } := by
  induction n generalizing s with
  | zero => rfl
  | succ m ih =>
    rw [emitRequests]
    show (emitRequests method { s with request_id := s.request_id + 1 } m).1 = _
    rw [ih]
    have h : s.request_id + 1 + m = s.request_id + (m + 1) := by omega
    simp [h]

/-- The ids of `n` consecutively emitted requests are the next `n`
counter values. -/
theorem emitRequests_ids (method : String) (s : ClientState) (n : Nat) :
    requestIds (emitRequests method s n).2 =
      List.range' (s.request_id + 1) n := by
  induction n generalizing s with
  | zero => rfl
  | succ m ih =>
    rw [emitRequests]
    show requestIds (.request method (s.request_id + 1) s.initialized ::
      (emitRequests method { s with request_id := s.request_id + 1 } m).2) = _
    rw [requestIds, ih]
    rw [List.range'_succ]

/-- Every message emitted by the main phase is a request of the phase's
method, carrying the session's `initialized` flag at that time. -/
theorem emitRequests_mem (method : String) (s : ClientState) (n : Nat)
    (msg : Msg) (h : msg ∈ (emitRequests method s n).2) :
    ∃ id, msg = .request method id s.initialized := by
  induction n generalizing s with
  | zero => exact absurd h (by simp [emitRequests])
  | succ m ih =>
    rw [emitRequests] at h
    have h2 : msg = .request method (s.request_id + 1) s.initialized ∨
        msg ∈ (emitRequests method { s with request_id := s.request_id + 1 } m).2 := by
      simpa using h
    rcases h2 with h2 | h2
    · exact ⟨s.request_id + 1, h2⟩
    · exact ih { s with request_id := s.request_id + 1 } h2

/-- `requestIds` distributes over trace concatenation. -/
theorem requestIds_append (a b : List Msg) :
    requestIds (a ++ b) = requestIds a ++ requestIds b := by
  induction a with
  | nil => rfl
  | cons msg t ih =>
    cases msg with
    | request method id f => simp [requestIds, ih]
    | notification method => simp [requestIds, ih]

/-- One operation posts requests carrying exactly the next `k` counter
values, for some `k`, and leaves `enabled` unchanged. -/
theorem runOp_ids (s : ClientState) (op : Op) :
    ∃ k, (runOp s op).1.request_id = s.request_id + k ∧
      requestIds (runOp s op).2 = List.range' (s.request_id + 1) k ∧
      (runOp s op).1.enabled = s.enabled := by
  rw [runOp]
  by_cases hg : op.kind.checksEnabled && !s.enabled
  · rw [if_pos hg]
    exact ⟨0, rfl, rfl, rfl⟩
  · rw [if_neg hg]
    rw [initialize_mcp_session]
    by_cases hinit : s.initialized
    · rw [if_pos hinit]
      show ∃ k, (emitRequests op.kind.method s op.sends).1.request_id = _ ∧
        requestIds ([] ++ (emitRequests op.kind.method s op.sends).2) = _ ∧
        (emitRequests op.kind.method s op.sends).1.enabled = _
      rw [emitRequests_state, List.nil_append, emitRequests_ids]
      exact ⟨op.sends, rfl, rfl, rfl⟩
    · rw [if_neg hinit]
      simp only [_get_next_request_id]
      by_cases hok : op.initOk
      · rw [if_pos hok]
        show ∃ k,
          (emitRequests op.kind.method
            { request_id := s.request_id + 1, initialized := true,
              enabled := s.enabled } op.sends).1.request_id = _ ∧
          requestIds ((Msg.request "initialize" (s.request_id + 1) s.initialized ::
            Msg.notification "notifications/initialized" :: []) ++
            (emitRequests op.kind.method
              { request_id := s.request_id + 1, initialized := true,
                enabled := s.enabled } op.sends).2) = _ ∧
          (emitRequests op.kind.method
            { request_id := s.request_id + 1, initialized := true,
              enabled := s.enabled } op.sends).1.enabled = _
        rw [emitRequests_state]
        simp only [List.cons_append, List.append_eq, List.nil_append, requestIds]
        rw [emitRequests_ids]
        refine ⟨op.sends + 1, by omega, ?_, trivial⟩
        show (s.request_id + 1) :: List.range' (s.request_id + 1 + 1) op.sends = _
        rw [List.range'_succ]
      · rw [if_neg hok]
        refine ⟨1, rfl, ?_, rfl⟩
        show requestIds [Msg.request "initialize" (s.request_id + 1) s.initialized] = _
        simp only [requestIds]
        rfl

/-- A whole interleaving posts requests carrying exactly the counter
values from `s.request_id + 1` on. -/
theorem runOps_ids (ops : List Op) (s : ClientState) :
    ∃ k, (runOps s ops).1.request_id = s.request_id + k ∧
      requestIds (runOps s ops).2 = List.range' (s.request_id + 1) k := by
  induction ops generalizing s with
  | nil => exact ⟨0, rfl, rfl⟩
  | cons op ops ih =>
    obtain ⟨k1, hs1, hm1, _⟩ := runOp_ids s op
    obtain ⟨k2, hs2, hm2⟩ := ih (runOp s op).1
    have hsplit : runOps s (op :: ops) =
        ((runOps (runOp s op).1 ops).1,
          (runOp s op).2 ++ (runOps (runOp s op).1 ops).2) := rfl
    refine ⟨k1 + k2, ?_, ?_⟩
    · rw [hsplit]
      show (runOps (runOp s op).1 ops).1.request_id = _
      rw [hs2, hs1]
      omega
    · rw [hsplit]
      show requestIds ((runOp s op).2 ++ (runOps (runOp s op).1 ops).2) = _
      rw [requestIds_append, hm1, hm2, hs1]
      have h : s.request_id + k1 + 1 = s.request_id + 1 + k1 := by omega
      rw [h, List.range'_append_1]
      have h2 : k2 + k1 = k1 + k2 := by omega
      rw [h2]

/-- C8: for every interleaving of operations on a fresh session (any
methods, any negotiation outcomes, any number of per-operation sends —
i.e., regardless of which calls fail), the ids attached to the outgoing
JSON-RPC requests are exactly 1, 2, 3, ...: the trace's id sequence equals
`List.range' 1` of its own length. -/
theorem request_ids_consecutive (en : Bool) (ops : List Op) :
    requestIds (runOps (freshClient en) ops).2 =
      List.range' 1 (requestIds (runOps (freshClient en) ops).2).length := by
  obtain ⟨k, _, hids⟩ := runOps_ids ops (freshClient en)
  rw [hids]
  show List.range' (0 + 1) k = _
  rw [List.length_range']

/-- Extending a trace that satisfies the handshake-precedence property
with a block whose own request occurrences justify their precedence
(relative to the already-emitted trace) preserves the property. -/
theorem handshakeFirst_append (a b : List Msg)
    (ha : HandshakeFirst a)
    (hb : ∀ l1 m id f l2, b = l1 ++ Msg.request m id f :: l2 →
      m ≠ "initialize" →
      f = true ∧ (∃ i g, Msg.request "initialize" i g ∈ a ++ l1) ∧
        Msg.notification "notifications/initialized" ∈ a ++ l1) :
    HandshakeFirst (a ++ b) := by
  intro l1 m id f l2 heq hm
  rcases List.append_eq_append_iff.mp heq with ⟨a2, hc, hb2⟩ | ⟨c2, hcc, hd⟩
  · subst hc
    exact hb a2 m id f l2 hb2 hm
  · cases c2 with
    | nil =>
      have ha2 : a = l1 := by simpa using hcc
      have hb2 : b = [] ++ Msg.request m id f :: l2 := by simpa using hd.symm
      have hres := hb [] m id f l2 hb2 hm
      rw [List.append_nil] at hres
      rw [← ha2]
      exact hres
    | cons x c2t =>
      have h1 := hd
      simp only [List.cons_append, List.cons.injEq] at h1
      obtain ⟨hx, hl2⟩ := h1
      exact ha l1 m id f c2t (by rw [hcc, hx]) hm

/-- Running one operation preserves handshake precedence and the
`initialized`-flag book-keeping. -/
theorem runOp_handshake (s : ClientState) (op : Op) (msgs : List Msg)
    (hh : HandshakeFirst msgs) (hi : InitDone s msgs) :
    HandshakeFirst (msgs ++ (runOp s op).2) ∧
      InitDone (runOp s op).1 (msgs ++ (runOp s op).2) := by
  rw [runOp]
  by_cases hg : op.kind.checksEnabled && !s.enabled
  · rw [if_pos hg]
    rw [List.append_nil]
    exact ⟨hh, hi⟩
  · rw [if_neg hg]
    rw [initialize_mcp_session]
    by_cases hinit : s.initialized
    · rw [if_pos hinit]
      obtain ⟨⟨i0, g0, hreq⟩, hnotif⟩ := hi hinit
      constructor
      · show HandshakeFirst
          (msgs ++ ([] ++ (emitRequests op.kind.method s op.sends).2))
        rw [List.nil_append]
        apply handshakeFirst_append msgs _ hh
        intro l1 m id f l2 heq hm
        have hmem : Msg.request m id f ∈
            (emitRequests op.kind.method s op.sends).2 := by
          rw [heq]
          exact List.mem_append_right _ (List.mem_cons_self _ _)
        obtain ⟨id2, hid2⟩ := emitRequests_mem _ _ _ _ hmem
        injection hid2 with hm1 hid3 hf
        refine ⟨by rw [hf]; exact hinit,
          ⟨i0, g0, List.mem_append_left _ hreq⟩,
          List.mem_append_left _ hnotif⟩
      · show InitDone (emitRequests op.kind.method s op.sends).1
          (msgs ++ ([] ++ (emitRequests op.kind.method s op.sends).2))
        intro _
        exact ⟨⟨i0, g0, List.mem_append_left _ hreq⟩,
          List.mem_append_left _ hnotif⟩
    · rw [if_neg hinit]
      simp only [_get_next_request_id]
      by_cases hok : op.initOk
      · rw [if_pos hok]
        constructor
        · show HandshakeFirst (msgs ++
            ((Msg.request "initialize" (s.request_id + 1) s.initialized ::
              Msg.notification "notifications/initialized" :: []) ++
             (emitRequests op.kind.method
               { request_id := s.request_id + 1, initialized := true,
                 enabled := s.enabled } op.sends).2))
          apply handshakeFirst_append msgs _ hh
          intro l1 m id f l2 heq hm
          rw [List.cons_append, List.cons_append, List.nil_append] at heq
          cases l1 with
          | nil =>
            simp only [List.nil_append, List.cons.injEq] at heq
            obtain ⟨hhd, _⟩ := heq
            injection hhd with hm1 _ _
            exact absurd hm1.symm hm
          | cons x l1t =>
            simp only [List.cons_append, List.cons.injEq] at heq
            obtain ⟨hx, heq2⟩ := heq
            cases l1t with
            | nil =>
              simp only [List.nil_append, List.cons.injEq] at heq2
              exact absurd heq2.1 (by intro hcon; exact Msg.noConfusion hcon)
            | cons y l1t2 =>
              simp only [List.cons_append, List.cons.injEq] at heq2
              obtain ⟨hy, heq3⟩ := heq2
              have hmem : Msg.request m id f ∈
                  (emitRequests op.kind.method
                    { request_id := s.request_id + 1, initialized := true,
                      enabled := s.enabled } op.sends).2 := by
                rw [heq3]
                exact List.mem_append_right _ (List.mem_cons_self _ _)
              obtain ⟨id2, hid2⟩ := emitRequests_mem _ _ _ _ hmem
              injection hid2 with hm1 hid3 hf
              refine ⟨hf, ?_, ?_⟩
              · refine ⟨s.request_id + 1, s.initialized, ?_⟩
                apply List.mem_append_right
                rw [← hx]
                exact List.mem_cons_self _ _
              · apply List.mem_append_right
                rw [← hy]
                exact List.mem_cons_of_mem _ (List.mem_cons_self _ _)
        · show InitDone
            (emitRequests op.kind.method
              { request_id := s.request_id + 1, initialized := true,
                enabled := s.enabled } op.sends).1
            (msgs ++
              ((Msg.request "initialize" (s.request_id + 1) s.initialized ::
                Msg.notification "notifications/initialized" :: []) ++
               (emitRequests op.kind.method
                 { request_id := s.request_id + 1, initialized := true,
                   enabled := s.enabled } op.sends).2))
          intro _
          constructor
          · refine ⟨s.request_id + 1, s.initialized, ?_⟩
            apply List.mem_append_right
            rw [List.cons_append]
            exact List.mem_cons_self _ _
          · apply List.mem_append_right
            rw [List.cons_append, List.cons_append]
            exact List.mem_cons_of_mem _ (List.mem_cons_self _ _)
      · rw [if_neg hok]
        constructor
        · show HandshakeFirst (msgs ++
            [Msg.request "initialize" (s.request_id + 1) s.initialized])
          apply handshakeFirst_append msgs _ hh
          intro l1 m id f l2 heq hm
          cases l1 with
          | nil =>
            simp only [List.nil_append, List.cons.injEq] at heq
            obtain ⟨hhd, _⟩ := heq
            injection hhd with hm1 _ _
            exact absurd hm1.symm hm
          | cons x l1t =>
            simp only [List.cons_append, List.cons.injEq] at heq
            obtain ⟨_, heq2⟩ := heq
            exact absurd heq2 (by simp)
        · show InitDone (ClientState.mk (s.request_id + 1) s.initialized s.enabled)
            (msgs ++ [Msg.request "initialize" (s.request_id + 1) s.initialized])
          intro hcon
          exact absurd hcon hinit

/-- Running any operation sequence preserves the two invariants. -/
theorem runOps_handshake (ops : List Op) (s : ClientState) (msgs : List Msg)
    (hh : HandshakeFirst msgs) (hi : InitDone s msgs) :
    HandshakeFirst (msgs ++ (runOps s ops).2) ∧
      InitDone (runOps s ops).1 (msgs ++ (runOps s ops).2) := by
  induction ops generalizing s msgs with
  | nil =>
    rw [runOps, List.append_nil]
    exact ⟨hh, hi⟩
  | cons op ops ih =>
    obtain ⟨hh1, hi1⟩ := runOp_handshake s op msgs hh hi
    have h := ih (runOp s op).1 (msgs ++ (runOp s op).2) hh1 hi1
    have hsplit : runOps s (op :: ops) =
        ((runOps (runOp s op).1 ops).1,
          (runOp s op).2 ++ (runOps (runOp s op).1 ops).2) := rfl
    rw [hsplit, ← List.append_assoc]
    exact h

/-- C9: in every execution trace of a fresh session — any interleaving of
`health_check`, `call_tool`, `get_resource`, `list_tools`,
`list_resources`, with any negotiation outcomes and send counts — every
request whose method is not `initialize` is sent with the session's
`initialized` flag true, and is preceded in the trace by the `initialize`
request and by the `notifications/initialized` notification (the completed
handshake for that session). -/
theorem no_request_before_handshake (en : Bool) (ops : List Op)
    (l1 : List Msg) (m : String) (id : Nat) (f : Bool) (l2 : List Msg)
    (heq : (runOps (freshClient en) ops).2 = l1 ++ Msg.request m id f :: l2)
    (hm : m ≠ "initialize") :
    f = true ∧ (∃ i g, Msg.request "initialize" i g ∈ l1) ∧
      Msg.notification "notifications/initialized" ∈ l1 := by
  have hempty : HandshakeFirst ([] : List Msg) := by
    intro l1x mx idx fx l2x heqx _
    exact absurd heqx.symm (by simp)
  have hinit : InitDone (freshClient en) [] := by
    intro hcon
    exact absurd hcon (by simp [freshClient])
  have h := (runOps_handshake ops (freshClient en) [] hempty hinit).1
  rw [List.nil_append] at h
  exact h l1 m id f l2 heq hm

/-- Witness for C9: a `call_tool` invocation on a fresh session; the
`tools/call` request at position 2 is preceded by the handshake. -/
theorem no_request_before_handshake_witness :
    (true = true ∧
      (∃ i g, Msg.request "initialize" i g ∈
        [Msg.request "initialize" 1 false,
         Msg.notification "notifications/initialized"]) ∧
      Msg.notification "notifications/initialized" ∈
        [Msg.request "initialize" 1 false,
         Msg.notification "notifications/initialized"]) := by
  exact no_request_before_handshake true [⟨.callTool, true, 1⟩]
    [Msg.request "initialize" 1 false,
     Msg.notification "notifications/initialized"]
    "tools/call" 2 true [] rfl (by decide)
